import Mathlib

/-!
Verification of the multiplayer-lobby package (Go) against its
natural-language specification.

The Go sources are shallowly embedded: the mutex-guarded Go maps become
association lists / lists of records, `time.Now()` becomes an explicit
`now : Nat` argument, the crypto RNG outputs (`GenerateUserID`,
`GenerateSecureToken`) become explicit arguments, and the optional event
hooks (`LobbyEvents`) are modelled as a trace of fired events: the trace
records every hook invocation the code performs assuming all hooks are
bound (an unbound hook merely drops its trace entry).  Each `Broadcaster`
call inside `broadcastLobbyState` is recorded as one `Event.broadcast`
entry.  Error returns (`errors.New`) are modelled by `OpResult.error`
carrying the Go error string.
-/

namespace MultiplayerLobby

/-- Stand-in for Go's opaque `map[string]interface{}` metadata bag. -/
abbrev Metadata := List (String × String)

/-- `LobbyState` from lobby.go: Waiting, InGame, Finished. -/
inductive LobbyState where
  | waiting
  | inGame
  | finished
  deriving DecidableEq, Repr

/-- `Player` from player.go. -/
structure Player where
  id : String
  username : String
  ready : Bool
  metadata : Metadata
  deriving DecidableEq, Repr

/-- `Lobby` from lobby.go / manager.go (including the `OwnerID` field used
by the current manager.go). `CreatedAt` is a `Nat` timestamp. -/
structure Lobby where
  id : String
  name : String
  maxPlayers : Int
  createdAt : Nat
  isPublic : Bool
  players : List Player
  state : LobbyState
  metadata : Metadata
  ownerID : String
  deriving DecidableEq, Repr

/-- The `lobbies map[LobbyID]*Lobby` of `LobbyManager`, as a list of
lobbies keyed by their `id` field (unique in every reachable state). -/
abbrev Registry := List Lobby

/-- One fired hook or one `Broadcaster` call, in firing order. -/
inductive Event where
  | onPlayerJoin (lobbyID playerID : String)
  | onPlayerLeave (lobbyID playerID : String)
  | onPlayerReady (lobbyID playerID : String)
  | onLobbyFull (lobbyID : String)
  | onLobbyEmpty (lobbyID : String)
  | onLobbyDeleted (lobbyID : String)
  | onLobbyStateChange (lobbyID : String)
  | broadcast (targetPlayerID lobbyID : String)
  deriving DecidableEq, Repr

/-- A Go `error` return: `nil` or `errors.New msg`. -/
inductive OpResult where
  | ok
  | error (msg : String)
  deriving DecidableEq, Repr

/-- Output of one `LobbyManager` operation: the registry afterwards, the
trace of fired hooks / broadcaster calls, and the returned `error`. -/
structure StepOut where
  registry : Registry
  events : List Event
  result : OpResult
  deriving DecidableEq, Repr

/-- `broadcastLobbyState` (manager.go): one `Broadcaster(player.ID, msg)`
call per current member. -/
def broadcastLobbyState (l : Lobby) : List Event :=
  l.players.map (fun p => Event.broadcast p.id l.id)

/-- Lookup in the `lobbies` map: `m.lobbies[lobbyID]`. -/
def findLobby (r : Registry) (lobbyID : String) : Option Lobby :=
  r.find? (fun l => l.id == lobbyID)

/-- Writing back the lobby the preceding lookup found (Go mutates it in
place through the map's pointer): replace the first entry whose id
matches. -/
def replaceLobby : Registry → String → Lobby → Registry
  | [], _, _ => []
  | l :: ls, lobbyID, nl =>
    if l.id == lobbyID then nl :: ls else l :: replaceLobby ls lobbyID nl

/-- `delete(m.lobbies, lobbyID)`: drop the entry with that id. -/
def removeLobby : Registry → String → Registry
  | [], _ => []
  | l :: ls, lobbyID => if l.id == lobbyID then ls else l :: removeLobby ls lobbyID

/-- `CreateLobby` (manager.go).  The lobby id is the name (`id :=
LobbyID(name)`).  On success fires `OnLobbyStateChange` and broadcasts
(to zero members). -/
def createLobby (r : Registry) (name : String) (maxPlayers : Int)
    (isPublic : Bool) (metadata : Metadata) (ownerID : String) (now : Nat) :
    StepOut :=
  match findLobby r name with
  | some _ => ⟨r, [], .error "lobby already exists"⟩
  | none =>
    let lobby : Lobby :=
      { id := name, name := name, maxPlayers := maxPlayers, createdAt := now
        isPublic := isPublic, players := [], state := .waiting
        metadata := metadata, ownerID := ownerID }
    ⟨r ++ [lobby],
     [Event.onLobbyStateChange lobby.id] ++ broadcastLobbyState lobby,
     .ok⟩

/-- `JoinLobby` (manager.go): errors if the lobby is absent, full, or the
player id already present; otherwise appends and fires `OnPlayerJoin`,
`OnLobbyFull` (iff capacity now exactly met), `OnLobbyStateChange`, then
broadcasts. -/
def joinLobby (r : Registry) (lobbyID : String) (player : Player) : StepOut :=
  match findLobby r lobbyID with
  | none => ⟨r, [], .error "lobby does not exist"⟩
  | some lobby =>
    if lobby.maxPlayers ≤ (lobby.players.length : Int) then
      ⟨r, [], .error "lobby is full"⟩
    else if lobby.players.any (fun p => p.id == player.id) then
      ⟨r, [], .error "player already in lobby"⟩
    else
      let lobby' := { lobby with players := lobby.players ++ [player] }
      ⟨replaceLobby r lobbyID lobby',
       [Event.onPlayerJoin lobbyID player.id]
         ++ (if (lobby'.players.length : Int) = lobby.maxPlayers then
              [Event.onLobbyFull lobbyID] else [])
         ++ [Event.onLobbyStateChange lobbyID]
         ++ broadcastLobbyState lobby',
       .ok⟩

/-- `DeleteLobby` (manager.go). -/
def deleteLobby (r : Registry) (lobbyID : String) : StepOut :=
  match findLobby r lobbyID with
  | none => ⟨r, [], .error "lobby does not exist"⟩
  | some _ => ⟨removeLobby r lobbyID, [], .ok⟩

/-- `LeaveLobby` (manager.go): removes the player, fires `OnPlayerLeave`,
`OnLobbyEmpty` (if now empty), `OnLobbyStateChange`, broadcasts to the
remaining members, and — if empty — fires `OnLobbyDeleted` and deletes
the lobby. -/
def leaveLobby (r : Registry) (lobbyID : String) (playerID : String) : StepOut :=
  match findLobby r lobbyID with
  | none => ⟨r, [], .error "lobby does not exist"⟩
  | some lobby =>
    if lobby.players.all (fun p => !(p.id == playerID)) then
      ⟨r, [], .error "player not in lobby"⟩
    else
      let newPlayers := lobby.players.filter (fun p => !(p.id == playerID))
      let lobby' := { lobby with players := newPlayers }
      ⟨(if newPlayers.isEmpty then removeLobby r lobbyID
        else replaceLobby r lobbyID lobby'),
       [Event.onPlayerLeave lobbyID playerID]
         ++ (if newPlayers.isEmpty then [Event.onLobbyEmpty lobbyID] else [])
         ++ [Event.onLobbyStateChange lobbyID]
         ++ broadcastLobbyState lobby'
         ++ (if newPlayers.isEmpty then [Event.onLobbyDeleted lobbyID] else []),
       .ok⟩

/-- The in-place `targetPlayer.Ready = ready` mutation: update the first
player with the given id (the one the Go loop found and broke on). -/
def setReadyFirst : List Player → String → Bool → List Player
  | [], _, _ => []
  | p :: ps, playerID, rdy =>
    if p.id == playerID then { p with ready := rdy } :: ps
    else p :: setReadyFirst ps playerID rdy

/-- `SetPlayerReady` (manager.go): no-op success when the requested value
equals the current one; otherwise updates the flag and fires
`OnPlayerReady`, `OnLobbyStateChange`, then broadcasts. -/
def setPlayerReady (r : Registry) (lobbyID : String) (playerID : String)
    (ready : Bool) : StepOut :=
  match findLobby r lobbyID with
  | none => ⟨r, [], .error "lobby does not exist"⟩
  | some lobby =>
    match lobby.players.find? (fun p => p.id == playerID) with
    | none => ⟨r, [], .error "player not in lobby"⟩
    | some target =>
      if target.ready == ready then ⟨r, [], .ok⟩
      else
        let lobby' := { lobby with players := setReadyFirst lobby.players playerID ready }
        ⟨replaceLobby r lobbyID lobby',
         [Event.onPlayerReady lobbyID playerID, Event.onLobbyStateChange lobbyID]
           ++ broadcastLobbyState lobby',
         .ok⟩

/-- `SetLobbyState` (manager.go): generic state setter, no-op success when
unchanged. -/
def setLobbyState (r : Registry) (lobbyID : String) (state : LobbyState) : StepOut :=
  match findLobby r lobbyID with
  | none => ⟨r, [], .error "lobby does not exist"⟩
  | some lobby =>
    if lobby.state == state then ⟨r, [], .ok⟩
    else
      let lobby' := { lobby with state := state }
      ⟨replaceLobby r lobbyID lobby',
       [Event.onLobbyStateChange lobbyID] ++ broadcastLobbyState lobby',
       .ok⟩

/-- The `canStart` permission of `StartGame` (manager.go): the pluggable
`CanStartGame` callback when bound, else the owner-only default. -/
def canStartCheck (canStartGame : Option (Lobby → String → Bool))
    (lobby : Lobby) (userID : String) : Bool :=
  match canStartGame with
  | some f => f lobby userID
  | none => lobby.ownerID == userID

/-- `StartGame` (manager.go): the permission check, then the
`state == LobbyInGame` guard; on success sets `LobbyInGame`, fires
`OnLobbyStateChange` and broadcasts. -/
def startGame (r : Registry) (lobbyID : String) (userID : String)
    (canStartGame : Option (Lobby → String → Bool)) : StepOut :=
  match findLobby r lobbyID with
  | none => ⟨r, [], .error "lobby does not exist"⟩
  | some lobby =>
    if !canStartCheck canStartGame lobby userID then
      ⟨r, [], .error "not allowed to start the game"⟩
    else if lobby.state == .inGame then ⟨r, [], .error "game already started"⟩
    else
      let lobby' := { lobby with state := .inGame }
      ⟨replaceLobby r lobbyID lobby',
       [Event.onLobbyStateChange lobbyID] ++ broadcastLobbyState lobby',
       .ok⟩

/-- `ListLobbies` (manager.go): snapshot of all lobbies. -/
def listLobbies (r : Registry) : List Lobby := r

/-- `GetLobbyByID` (manager.go): the `(lobby, exists)` pair as an option. -/
def getLobbyByID (r : Registry) (lobbyID : String) : Option Lobby :=
  findLobby r lobbyID

/-- The per-lobby state as seen through the registry. -/
def stateOf (r : Registry) (lobbyID : String) : Option LobbyState :=
  (findLobby r lobbyID).map (fun l => l.state)

/-- One invocation of a specified Lobby Registry operation, with its
arguments (the RNG-free operations of the claims: createLobby, join,
leave, setReady, setState, startGame). -/
inductive LobbyAction where
  | create (name : String) (maxPlayers : Int) (isPublic : Bool)
      (metadata : Metadata) (ownerID : String) (now : Nat)
  | join (lobbyID : String) (player : Player)
  | leave (lobbyID : String) (playerID : String)
  | setReady (lobbyID : String) (playerID : String) (ready : Bool)
  | setState (lobbyID : String) (state : LobbyState)
  | start (lobbyID : String) (userID : String)
      (canStartGame : Option (Lobby → String → Bool))

/-- Run one operation against the registry. -/
def applyAction (r : Registry) : LobbyAction → StepOut
  | .create name mp pub md own now => createLobby r name mp pub md own now
  | .join lobbyID p => joinLobby r lobbyID p
  | .leave lobbyID pid => leaveLobby r lobbyID pid
  | .setReady lobbyID pid rdy => setPlayerReady r lobbyID pid rdy
  | .setState lobbyID st => setLobbyState r lobbyID st
  | .start lobbyID uid cs => startGame r lobbyID uid cs

/-- Registry states reachable from the empty registry by the specified
operations. -/
inductive Reachable : Registry → Prop where
  | empty : Reachable []
  | step (r : Registry) (a : LobbyAction) :
      Reachable r → Reachable (applyAction r a).registry

/-- Whether the action is a `create` with a non-negative capacity
argument (Go's `int` admits negative capacities; the spec's data model
demands `maxPlayers > 0`). -/
def actionCapacityOK : LobbyAction → Prop
  | .create _ mp _ _ _ _ => 0 ≤ mp
  | _ => True

/-- Reachable using only `create` calls with non-negative capacity. -/
inductive ReachableNN : Registry → Prop where
  | empty : ReachableNN []
  | step (r : Registry) (a : LobbyAction) :
      ReachableNN r → actionCapacityOK a → ReachableNN (applyAction r a).registry

/-- Whether the action is the generic `setState` setter. -/
def isSetState : LobbyAction → Prop
  | .setState _ _ => True
  | _ => False

/-- Whether the action is a `startGame` invocation. -/
def isStartGame : LobbyAction → Prop
  | .start _ _ _ => True
  | _ => False

/-- Reachable without ever invoking the generic `setState` setter. -/
inductive ReachableNoSetState : Registry → Prop where
  | empty : ReachableNoSetState []
  | step (r : Registry) (a : LobbyAction) :
      ReachableNoSetState r → ¬ isSetState a →
      ReachableNoSetState (applyAction r a).registry

/-- Lobby ids are unique across the registry (the Go map's key
uniqueness). -/
def idsNodup (r : Registry) : Prop := (r.map (fun l => l.id)).Nodup

/-- Player ids are unique within every lobby. -/
def playersNodup (r : Registry) : Prop :=
  ∀ l ∈ r, (l.players.map (fun p => p.id)).Nodup

/-- Every lobby respects its capacity bound. -/
def capacityRespected (r : Registry) : Prop :=
  ∀ l ∈ r, (l.players.length : Int) ≤ l.maxPlayers

/-- No lobby is in the Finished state. -/
def noFinished (r : Registry) : Prop := ∀ l ∈ r, l.state ≠ .finished

/-! ## Session Registry (session.go) -/

/-- `UserSession` from session.go; `LastSeen` is a `Nat` timestamp. -/
structure UserSession where
  id : String
  username : String
  token : String
  active : Bool
  lobbyID : String
  lastSeen : Nat
  deriving DecidableEq, Repr

/-- Association-list lookup, the Go map read `m[k]`. -/
def alLookup {α : Type} : List (String × α) → String → Option α
  | [], _ => none
  | (k, v) :: ls, key => if k == key then some v else alLookup ls key

/-- Association-list write, the Go map assignment `m[k] = v`. -/
def alInsert {α : Type} : List (String × α) → String → α → List (String × α)
  | [], key, v => [(key, v)]
  | (k, w) :: ls, key, v =>
    if k == key then (key, v) :: ls else (k, w) :: alInsert ls key v

/-- `SessionManager` (session.go): the `sessions` (userID → session) and
`usernameToID` maps.  The session event hooks carry no state and are not
needed by the claims, so they are not traced. -/
structure SessionManager where
  sessions : List (String × UserSession)
  usernameToID : List (String × String)
  deriving DecidableEq, Repr

/-- `NewSessionManager`. -/
def newSessionManager : SessionManager := ⟨[], []⟩

/-- `CreateSession` (session.go): the generated user id and token are
explicit arguments (the code draws them from crypto/rand). -/
def createSession (sm : SessionManager) (username : String)
    (userID token : String) (now : Nat) : SessionManager × UserSession :=
  let session : UserSession :=
    { id := userID, username := username, token := token
      active := true, lobbyID := "", lastSeen := now }
  (⟨alInsert sm.sessions userID session,
    alInsert sm.usernameToID username userID⟩, session)

/-- `ValidateSessionToken` (session.go): active session with an exactly
matching token; touches `LastSeen` on success. -/
def validateSessionToken (sm : SessionManager) (username token : String)
    (now : Nat) : SessionManager × Option UserSession :=
  match alLookup sm.usernameToID username with
  | none => (sm, none)
  | some userID =>
    match alLookup sm.sessions userID with
    | none => (sm, none)
    | some session =>
      if !session.active then (sm, none)
      else if !(session.token == token) then (sm, none)
      else
        let session' := { session with lastSeen := now }
        ({ sm with sessions := alInsert sm.sessions userID session' },
         some session')

/-- `ReconnectSession` (session.go): like validation but also succeeds on
an inactive session; on success reactivates it and touches `LastSeen`. -/
def reconnectSession (sm : SessionManager) (username token : String)
    (now : Nat) : SessionManager × Option UserSession :=
  match alLookup sm.usernameToID username with
  | none => (sm, none)
  | some userID =>
    match alLookup sm.sessions userID with
    | none => (sm, none)
    | some session =>
      if !(session.token == token) then (sm, none)
      else
        let session' := { session with active := true, lastSeen := now }
        ({ sm with sessions := alInsert sm.sessions userID session' },
         some session')

/-- `GetSessionByID` (session.go): returns the record whenever the id is
present (inactive included); touches `LastSeen` iff the session is
active. -/
def getSessionByID (sm : SessionManager) (userID : String) (now : Nat) :
    SessionManager × Option UserSession :=
  match alLookup sm.sessions userID with
  | none => (sm, none)
  | some session =>
    if session.active then
      let session' := { session with lastSeen := now }
      ({ sm with sessions := alInsert sm.sessions userID session' },
       some session')
    else (sm, some session)

/-- `RemoveSession` (session.go): marks an active session inactive. -/
def removeSession (sm : SessionManager) (userID : String) : SessionManager :=
  match alLookup sm.sessions userID with
  | none => sm
  | some session =>
    if session.active then
      { sm with sessions := alInsert sm.sessions userID { session with active := false } }
    else sm

/-- `ForceRemoveSession` (session.go): marks the session inactive
regardless of its current state (the record is not deleted). -/
def forceRemoveSession (sm : SessionManager) (userID : String) : SessionManager :=
  match alLookup sm.sessions userID with
  | none => sm
  | some session =>
    { sm with sessions := alInsert sm.sessions userID { session with active := false } }

/-- `IsUsernameTaken` (session.go): the username resolves to a session
that exists and is active. -/
def isUsernameTaken (sm : SessionManager) (username : String) : Bool :=
  match alLookup sm.usernameToID username with
  | none => false
  | some userID =>
    match alLookup sm.sessions userID with
    | none => false
    | some session => session.active

/-- Outcome of the new-registration path of `RegisterUserHandler`. -/
inductive RegisterResult where
  | ok (session : UserSession)
  | usernameTaken
  deriving DecidableEq, Repr

/-- The fresh-registration path of `RegisterUserHandler` (handlers.go,
no-token branch): reject with `UsernameTaken` when `IsUsernameTaken`,
otherwise `CreateSession`.  This is the code's realization of the spec's
`createSession(username)` Session Registry operation. -/
def registerNewUser (sm : SessionManager) (username : String)
    (userID token : String) (now : Nat) : SessionManager × RegisterResult :=
  if isUsernameTaken sm username then (sm, .usernameTaken)
  else
    let (sm', session) := createSession sm username userID token now
    (sm', .ok session)

/-! ## Message Dispatcher (router, src/unnamed/part_000) -/

/-- A parsed `{action, data}` envelope; the raw payload stays opaque. -/
structure IncomingMessage where
  action : String
  data : String
  deriving DecidableEq, Repr

/-- `MessageHandler`, abstracted over the connection: the handler's
observable outcome (response writes plus returned error) lives in an
arbitrary result type `ρ`. -/
def MessageHandler (ρ : Type) := IncomingMessage → ρ

/-- `Middleware` wraps a `MessageHandler`. -/
def Middleware (ρ : Type) := MessageHandler ρ → MessageHandler ρ

/-- `MessageRouter`: handler registry plus the ordered middleware list. -/
structure MessageRouter (ρ : Type) where
  handlers : List (String × MessageHandler ρ)
  middleware : List (Middleware ρ)

/-- `NewMessageRouter`. -/
def newMessageRouter (ρ : Type) : MessageRouter ρ := ⟨[], []⟩

/-- `Handle` registers a handler for an action. -/
def MessageRouter.handle (r : MessageRouter ρ) (action : String)
    (h : MessageHandler ρ) : MessageRouter ρ :=
  { r with handlers := alInsert r.handlers action h }

/-- `Use` appends a middleware (registration order = list order). -/
def MessageRouter.use (r : MessageRouter ρ) (mw : Middleware ρ) : MessageRouter ρ :=
  { r with middleware := r.middleware ++ [mw] }

/-- The `for i := len-1; i >= 0; i--` fold of Dispatch: the head of the
middleware list (first registered) ends up outermost. -/
def applyMiddlewareChain : List (Middleware ρ) → MessageHandler ρ → MessageHandler ρ
  | [], h => h
  | mw :: rest, h => mw (applyMiddlewareChain rest h)

/-- Dispatch's observable outcome: which error response was emitted, or
the wrapped handler's propagated result. -/
inductive DispatchResult (ρ : Type) where
  | invalidMessage
  | unknownAction (action : String)
  | handled (r : ρ)

/-- `Dispatch` (router): JSON parsing of the raw bytes is external, so it
takes the parse outcome (`none` = unmarshal error). -/
def dispatch (r : MessageRouter ρ) (parsed : Option IncomingMessage) :
    DispatchResult ρ :=
  match parsed with
  | none => .invalidMessage
  | some msg =>
    match alLookup r.handlers msg.action with
    | none => .unknownAction msg.action
    | some handler => .handled (applyMiddlewareChain r.middleware handler msg)

/-! ## Association-list map lemmas -/

theorem alLookup_alInsert_self {α : Type} (l : List (String × α)) (k : String) (v : α) :
    alLookup (alInsert l k v) k = some v := by
  induction l with
  | nil => simp [alInsert, alLookup]
  | cons hd tl ih =>
    obtain ⟨k', v'⟩ := hd
    by_cases h : k' = k
    · subst h; simp [alInsert, alLookup]
    · simp [alInsert, alLookup, h, ih]

theorem alLookup_alInsert_ne {α : Type} (l : List (String × α)) (k k' : String)
    (v : α) (h : k' ≠ k) : alLookup (alInsert l k v) k' = alLookup l k' := by
  have hne : ¬ k = k' := fun hh => h hh.symm
  induction l with
  | nil => simp [alInsert, alLookup, hne]
  | cons hd tl ih =>
    obtain ⟨k₀, v₀⟩ := hd
    by_cases h0 : k₀ = k
    · subst h0
      simp [alInsert, alLookup, hne, fun hh : k₀ = k' => h hh.symm]
    · simp [alInsert, alLookup, h0, ih]

/-! ## Claim C9: message dispatch -/

/-- Claim C9: `Dispatch` emits exactly one `InvalidMessage` response on a
parse failure, exactly one `UnknownAction` response when no handler is
registered for the action, and otherwise invokes the base handler wrapped
by the middleware chain — the first-registered middleware outermost — and
propagates that handler's result unchanged. -/
theorem dispatch_routes_and_wraps {ρ : Type} :
    (∀ r : MessageRouter ρ, dispatch r none = .invalidMessage) ∧
    (∀ (r : MessageRouter ρ) (msg : IncomingMessage),
      alLookup r.handlers msg.action = none →
      dispatch r (some msg) = .unknownAction msg.action) ∧
    (∀ (r : MessageRouter ρ) (msg : IncomingMessage) (h : MessageHandler ρ),
      alLookup r.handlers msg.action = some h →
      dispatch r (some msg) =
        .handled (applyMiddlewareChain r.middleware h msg)) ∧
    (∀ (mw : Middleware ρ) (rest : List (Middleware ρ)) (h : MessageHandler ρ),
      applyMiddlewareChain (mw :: rest) h = mw (applyMiddlewareChain rest h)) := by
  refine ⟨fun r => rfl, fun r msg hnone => ?_, fun r msg h hsome => ?_,
    fun mw rest h => rfl⟩
  · simp [dispatch, hnone]
  · simp [dispatch, hsome]

/-- Witness for C9 at a concrete router over `ρ = Nat`: an unregistered
action yields `UnknownAction`, a registered one runs the middleware-wrapped
handler (outermost middleware adds 10 last). -/
theorem dispatch_routes_and_wraps_witness :
    dispatch
        (⟨[("ping", fun _ => 1)], [fun h m => h m + 10]⟩ : MessageRouter Nat)
        (some ⟨"pong", ""⟩) =
      .unknownAction "pong" ∧
    dispatch
        (⟨[("ping", fun _ => 1)], [fun h m => h m + 10]⟩ : MessageRouter Nat)
        (some ⟨"ping", ""⟩) =
      .handled 11 := by
  refine ⟨dispatch_routes_and_wraps.2.1 _ _ rfl, ?_⟩
  exact dispatch_routes_and_wraps.2.2.1
    ⟨[("ping", fun _ => 1)], [fun h m => h m + 10]⟩ ⟨"ping", ""⟩ (fun _ => 1) rfl

/-! ## Claim C2: token-authenticated reconnection -/

/-- Claim C2: `ReconnectSession(username, token)` succeeds iff a session
record for that username exists and its stored token equals the supplied
token exactly; it succeeds even when that session is inactive, on success
flipping the session back to active (same id, updated lastSeen); a wrong
token returns nothing and changes nothing. -/
theorem reconnectSession_token_auth (sm : SessionManager)
    (username token : String) (now : Nat) :
    ((reconnectSession sm username token now).2.isSome ↔
      ∃ userID session, alLookup sm.usernameToID username = some userID ∧
        alLookup sm.sessions userID = some session ∧ session.token = token) ∧
    (∀ userID session,
      alLookup sm.usernameToID username = some userID →
      alLookup sm.sessions userID = some session →
      session.token = token →
      reconnectSession sm username token now =
        (⟨alInsert sm.sessions userID ({ session with active := true, lastSeen := now }),
          sm.usernameToID⟩,
         some ({ session with active := true, lastSeen := now }))) ∧
    (∀ userID session,
      alLookup sm.usernameToID username = some userID →
      alLookup sm.sessions userID = some session →
      session.token ≠ token →
      reconnectSession sm username token now = (sm, none)) := by
  refine ⟨?_, ?_, ?_⟩
  · constructor
    · intro hs
      rcases h1 : alLookup sm.usernameToID username with _ | userID
      · simp [reconnectSession, h1] at hs
      · rcases h2 : alLookup sm.sessions userID with _ | session
        · simp [reconnectSession, h1, h2] at hs
        · refine ⟨userID, session, rfl, h2, ?_⟩
          by_cases htok : session.token = token
          · exact htok
          · simp [reconnectSession, h1, h2, htok] at hs
    · rintro ⟨userID, session, h1, h2, htok⟩
      simp [reconnectSession, h1, h2, htok]
  · intro userID session h1 h2 htok
    simp [reconnectSession, h1, h2, htok]
  · intro userID session h1 h2 htok
    simp [reconnectSession, h1, h2, htok]

/-- Witness for C2: a deactivated session for `"alice"` is reactivated by
the correct token and refused with a wrong token. -/
theorem reconnectSession_token_auth_witness :
    reconnectSession
        ⟨[("u1", ⟨"u1", "alice", "tok", false, "", 0⟩)], [("alice", "u1")]⟩
        "alice" "tok" 7 =
      (⟨[("u1", ⟨"u1", "alice", "tok", true, "", 7⟩)], [("alice", "u1")]⟩,
       some ⟨"u1", "alice", "tok", true, "", 7⟩) ∧
    reconnectSession
        ⟨[("u1", ⟨"u1", "alice", "tok", false, "", 0⟩)], [("alice", "u1")]⟩
        "alice" "wrong" 7 =
      (⟨[("u1", ⟨"u1", "alice", "tok", false, "", 0⟩)], [("alice", "u1")]⟩,
       none) := by
  constructor
  · exact (reconnectSession_token_auth
      ⟨[("u1", ⟨"u1", "alice", "tok", false, "", 0⟩)], [("alice", "u1")]⟩
      "alice" "tok" 7).2.1 "u1" ⟨"u1", "alice", "tok", false, "", 0⟩
      (by decide) (by decide) (by decide)
  · exact (reconnectSession_token_auth
      ⟨[("u1", ⟨"u1", "alice", "tok", false, "", 0⟩)], [("alice", "u1")]⟩
      "alice" "wrong" 7).2.2 "u1" ⟨"u1", "alice", "tok", false, "", 0⟩
      (by decide) (by decide) (by decide)

/-! ## Claim C10: GetSessionByID lookup and frame -/

/-- Claim C10: `GetSessionByID(id)` returns the stored record whenever the
id is present — inactive sessions included — and its only side effect is
touching that session's `LastSeen` iff the session is active; other
sessions and the username index are untouched. -/
theorem getSessionByID_touch_frame (sm : SessionManager) (userID : String)
    (now : Nat) :
    (alLookup sm.sessions userID = none →
      getSessionByID sm userID now = (sm, none)) ∧
    (∀ session, alLookup sm.sessions userID = some session →
      (getSessionByID sm userID now).2 =
        some (if session.active then { session with lastSeen := now } else session) ∧
      (session.active = true →
        (getSessionByID sm userID now).1 =
          ⟨alInsert sm.sessions userID ({ session with lastSeen := now }),
           sm.usernameToID⟩) ∧
      (session.active = false → (getSessionByID sm userID now).1 = sm) ∧
      (∀ other : String, other ≠ userID →
        alLookup (getSessionByID sm userID now).1.sessions other =
          alLookup sm.sessions other) ∧
      (getSessionByID sm userID now).1.usernameToID = sm.usernameToID) := by
  constructor
  · intro hnone
    simp [getSessionByID, hnone]
  · intro session hsome
    rcases hact : session.active with _ | _
    · simp [getSessionByID, hsome, hact]
    · refine ⟨by simp [getSessionByID, hsome, hact],
        fun _ => by simp [getSessionByID, hsome, hact],
        fun hc => by simp at hc, fun other hother => ?_, ?_⟩
      · simp only [getSessionByID, hsome, hact, if_pos rfl]
        exact alLookup_alInsert_ne sm.sessions userID other _ hother
      · simp [getSessionByID, hsome, hact]

/-- Witness for C10: an active and an inactive session, looked up by id. -/
theorem getSessionByID_touch_frame_witness :
    (getSessionByID ⟨[("u1", ⟨"u1", "alice", "tok", true, "", 0⟩),
                      ("u2", ⟨"u2", "bob", "tok2", false, "", 0⟩)],
                     [("alice", "u1"), ("bob", "u2")]⟩ "u1" 9).2 =
      some ⟨"u1", "alice", "tok", true, "", 9⟩ ∧
    (getSessionByID ⟨[("u1", ⟨"u1", "alice", "tok", true, "", 0⟩),
                      ("u2", ⟨"u2", "bob", "tok2", false, "", 0⟩)],
                     [("alice", "u1"), ("bob", "u2")]⟩ "u2" 9).1 =
      ⟨[("u1", ⟨"u1", "alice", "tok", true, "", 0⟩),
        ("u2", ⟨"u2", "bob", "tok2", false, "", 0⟩)],
       [("alice", "u1"), ("bob", "u2")]⟩ := by
  constructor
  · have h := ((getSessionByID_touch_frame
      ⟨[("u1", ⟨"u1", "alice", "tok", true, "", 0⟩),
        ("u2", ⟨"u2", "bob", "tok2", false, "", 0⟩)],
       [("alice", "u1"), ("bob", "u2")]⟩ "u1" 9).2
      ⟨"u1", "alice", "tok", true, "", 0⟩ (by decide)).1
    simpa using h
  · exact ((getSessionByID_touch_frame
      ⟨[("u1", ⟨"u1", "alice", "tok", true, "", 0⟩),
        ("u2", ⟨"u2", "bob", "tok2", false, "", 0⟩)],
       [("alice", "u1"), ("bob", "u2")]⟩ "u2" 9).2
      ⟨"u2", "bob", "tok2", false, "", 0⟩ (by decide)).2.2.1 rfl

/-! ## Claim C3 (corrected): ForceRemoveSession deactivates, not deletes -/

/-- Counterexample to claim C3 as stated: after `ForceRemoveSession` the
session record is still present — `GetSessionByID` still reports it
(now inactive) and the username still resolves to it; the record is not
deleted. -/
theorem forceRemoveSession_keeps_record_counterexample :
    (getSessionByID
        (forceRemoveSession
          ⟨[("u1", ⟨"u1", "alice", "tok", true, "", 0⟩)], [("alice", "u1")]⟩
          "u1") "u1" 3).2 =
      some ⟨"u1", "alice", "tok", false, "", 0⟩ ∧
    alLookup (forceRemoveSession
        ⟨[("u1", ⟨"u1", "alice", "tok", true, "", 0⟩)], [("alice", "u1")]⟩
        "u1").usernameToID "alice" = some "u1" := by constructor <;> decide

/-- Claim C3 amended: `ForceRemoveSession(id)` unconditionally marks the
session inactive regardless of whether it was active or inactive; the
record itself stays in the registry (with every other field intact) and
the username index is untouched. -/
theorem forceRemoveSession_deactivates (sm : SessionManager) (userID : String) :
    (alLookup sm.sessions userID = none → forceRemoveSession sm userID = sm) ∧
    (∀ session, alLookup sm.sessions userID = some session →
      forceRemoveSession sm userID =
        ⟨alInsert sm.sessions userID ({ session with active := false }),
         sm.usernameToID⟩ ∧
      alLookup (forceRemoveSession sm userID).sessions userID =
        some ({ session with active := false })) := by
  constructor
  · intro hnone; simp [forceRemoveSession, hnone]
  · intro session hsome
    refine ⟨by simp [forceRemoveSession, hsome], ?_⟩
    simp only [forceRemoveSession, hsome]
    exact alLookup_alInsert_self sm.sessions userID _

/-- Witness for the amended C3: an inactive session is deactivated again
in place and stays retrievable. -/
theorem forceRemoveSession_deactivates_witness :
    forceRemoveSession
        ⟨[("u1", ⟨"u1", "alice", "tok", false, "", 0⟩)], [("alice", "u1")]⟩ "u1" =
      ⟨[("u1", ⟨"u1", "alice", "tok", false, "", 0⟩)], [("alice", "u1")]⟩ ∧
    forceRemoveSession ⟨[], []⟩ "ghost" = ⟨[], []⟩ := by
  constructor
  · have h := ((forceRemoveSession_deactivates
      ⟨[("u1", ⟨"u1", "alice", "tok", false, "", 0⟩)], [("alice", "u1")]⟩ "u1").2
      ⟨"u1", "alice", "tok", false, "", 0⟩ (by decide)).1
    simpa using h
  · exact (forceRemoveSession_deactivates ⟨[], []⟩ "ghost").1 (by decide)

/-! ## Claim C7: registration and the active-username guard -/

/-- Claim C7: the fresh-registration operation (the code's
`IsUsernameTaken` guard followed by `CreateSession`, as composed by
`RegisterUserHandler`) fails with `UsernameTaken` exactly when an active
session for the username exists; a username whose only session is
inactive is never reported taken; otherwise a fresh session (given id and
token, active, inserted in both indices) is returned. -/
theorem registerNewUser_active_guard (sm : SessionManager)
    (username userID token : String) (now : Nat) :
    ((registerNewUser sm username userID token now).2 = .usernameTaken ↔
      isUsernameTaken sm username = true) ∧
    (isUsernameTaken sm username = true ↔
      ∃ uid session, alLookup sm.usernameToID username = some uid ∧
        alLookup sm.sessions uid = some session ∧ session.active = true) ∧
    (∀ uid session, alLookup sm.usernameToID username = some uid →
      alLookup sm.sessions uid = some session → session.active = false →
      isUsernameTaken sm username = false) ∧
    (isUsernameTaken sm username = false →
      registerNewUser sm username userID token now =
        (⟨alInsert sm.sessions userID ⟨userID, username, token, true, "", now⟩,
          alInsert sm.usernameToID username userID⟩,
         .ok ⟨userID, username, token, true, "", now⟩)) := by
  refine ⟨?_, ?_, ?_, ?_⟩
  · constructor
    · intro h
      by_cases ht : isUsernameTaken sm username
      · exact ht
      · simp [registerNewUser, ht, createSession] at h
    · intro ht; simp [registerNewUser, ht]
  · constructor
    · intro ht
      rcases h1 : alLookup sm.usernameToID username with _ | uid
      · simp [isUsernameTaken, h1] at ht
      · rcases h2 : alLookup sm.sessions uid with _ | session
        · simp [isUsernameTaken, h1, h2] at ht
        · refine ⟨uid, session, rfl, h2, ?_⟩
          simpa [isUsernameTaken, h1, h2] using ht
    · rintro ⟨uid, session, h1, h2, hact⟩
      simp [isUsernameTaken, h1, h2, hact]
  · intro uid session h1 h2 hact
    simp [isUsernameTaken, h1, h2, hact]
  · intro ht
    simp [registerNewUser, ht, createSession]

/-- Witness for C7: a taken active username is rejected; the same username
with only an inactive session registers fresh. -/
theorem registerNewUser_active_guard_witness :
    (registerNewUser
        ⟨[("u1", ⟨"u1", "alice", "tok", true, "", 0⟩)], [("alice", "u1")]⟩
        "alice" "u9" "tok9" 5).2 = .usernameTaken ∧
    registerNewUser
        ⟨[("u1", ⟨"u1", "alice", "tok", false, "", 0⟩)], [("alice", "u1")]⟩
        "alice" "u9" "tok9" 5 =
      (⟨[("u1", ⟨"u1", "alice", "tok", false, "", 0⟩),
         ("u9", ⟨"u9", "alice", "tok9", true, "", 5⟩)],
        [("alice", "u9")]⟩,
       .ok ⟨"u9", "alice", "tok9", true, "", 5⟩) := by
  constructor
  · exact (registerNewUser_active_guard
      ⟨[("u1", ⟨"u1", "alice", "tok", true, "", 0⟩)], [("alice", "u1")]⟩
      "alice" "u9" "tok9" 5).1.mpr (by decide)
  · have h := (registerNewUser_active_guard
      ⟨[("u1", ⟨"u1", "alice", "tok", false, "", 0⟩)], [("alice", "u1")]⟩
      "alice" "u9" "tok9" 5).2.2.2 (by decide)
    simpa using h

/-! ## Registry lemmas -/

theorem findLobby_some_mem {r : Registry} {lobbyID : String} {l : Lobby}
    (h : findLobby r lobbyID = some l) : l ∈ r :=
  List.mem_of_find?_eq_some h

theorem findLobby_some_id {r : Registry} {lobbyID : String} {l : Lobby}
    (h : findLobby r lobbyID = some l) : l.id = lobbyID := by
  have := List.find?_some h
  simpa using this

theorem findLobby_eq_none {r : Registry} {lobbyID : String} :
    findLobby r lobbyID = none ↔ ∀ l ∈ r, l.id ≠ lobbyID := by
  simp [findLobby, List.find?_eq_none]

theorem replaceLobby_map_id {r : Registry} {lobbyID : String} {nl : Lobby}
    (hnl : nl.id = lobbyID) :
    (replaceLobby r lobbyID nl).map (fun l => l.id) = r.map (fun l => l.id) := by
  induction r with
  | nil => rfl
  | cons hd tl ih =>
    by_cases h : hd.id = lobbyID
    · simp [replaceLobby, h, hnl]
    · simp [replaceLobby, h, ih]

theorem mem_replaceLobby {r : Registry} {lobbyID : String} {nl x : Lobby}
    (hx : x ∈ replaceLobby r lobbyID nl) : x ∈ r ∨ x = nl := by
  induction r with
  | nil => simp [replaceLobby] at hx
  | cons hd tl ih =>
    by_cases h : hd.id = lobbyID
    · simp only [replaceLobby, h, beq_self_eq_true, if_pos rfl] at hx
      rcases List.mem_cons.mp hx with h1 | h1
      · exact Or.inr h1
      · exact Or.inl (List.mem_cons_of_mem _ h1)
    · simp only [replaceLobby, beq_iff_eq, if_neg h] at hx
      rcases List.mem_cons.mp hx with h1 | h1
      · exact Or.inl (h1 ▸ List.mem_cons_self _ _)
      · rcases ih h1 with h2 | h2
        · exact Or.inl (List.mem_cons_of_mem _ h2)
        · exact Or.inr h2

theorem findLobby_replaceLobby_self {r : Registry} {lobbyID : String}
    {nl l : Lobby} (hnl : nl.id = lobbyID)
    (h : findLobby r lobbyID = some l) :
    findLobby (replaceLobby r lobbyID nl) lobbyID = some nl := by
  induction r with
  | nil => simp [findLobby] at h
  | cons hd tl ih =>
    by_cases hh : hd.id = lobbyID
    · simp [replaceLobby, findLobby, hh, hnl]
    · have h' : findLobby tl lobbyID = some l := by
        simpa [findLobby, List.find?_cons, hh] using h
      simpa [replaceLobby, findLobby, List.find?_cons, hh] using ih h'

theorem findLobby_replaceLobby_ne {r : Registry} {lobbyID qid : String}
    {nl : Lobby} (hnl : nl.id = lobbyID) (hq : qid ≠ lobbyID) :
    findLobby (replaceLobby r lobbyID nl) qid = findLobby r qid := by
  have h3 : ¬ lobbyID = qid := fun hc => hq hc.symm
  induction r with
  | nil => rfl
  | cons hd tl ih =>
    by_cases hh : hd.id = lobbyID
    · have h1 : ¬ nl.id = qid := by rw [hnl]; exact h3
      have h2 : ¬ hd.id = qid := by rw [hh]; exact h3
      simp [replaceLobby, findLobby, List.find?_cons, hh, h1, h2, h3]
    · by_cases hdq : hd.id = qid
      · simp [replaceLobby, findLobby, List.find?_cons, hh, hdq, hq]
      · simpa [replaceLobby, findLobby, List.find?_cons, hh, hdq] using ih

theorem removeLobby_sublist (r : Registry) (lobbyID : String) :
    List.Sublist (removeLobby r lobbyID) r := by
  induction r with
  | nil => simp [removeLobby]
  | cons hd tl ih =>
    by_cases h : hd.id = lobbyID
    · simp only [removeLobby, h, beq_self_eq_true, if_pos rfl]
      exact List.sublist_cons_self hd tl
    · simpa [removeLobby, h] using List.Sublist.cons₂ hd ih

theorem mem_removeLobby {r : Registry} {lobbyID : String} {x : Lobby}
    (hx : x ∈ removeLobby r lobbyID) : x ∈ r :=
  (removeLobby_sublist r lobbyID).subset hx

theorem removeLobby_map_id_sublist (r : Registry) (lobbyID : String) :
    List.Sublist ((removeLobby r lobbyID).map (fun l => l.id))
      (r.map (fun l => l.id)) :=
  (removeLobby_sublist r lobbyID).map _

theorem findLobby_removeLobby_self {r : Registry} {lobbyID : String}
    (hnodup : (r.map (fun l => l.id)).Nodup) :
    findLobby (removeLobby r lobbyID) lobbyID = none := by
  induction r with
  | nil => rfl
  | cons hd tl ih =>
    simp only [List.map_cons, List.nodup_cons, List.mem_map] at hnodup
    by_cases h : hd.id = lobbyID
    · simp only [removeLobby, h, beq_self_eq_true, if_pos rfl]
      rw [findLobby_eq_none]
      intro l hl hcon
      exact hnodup.1 ⟨l, hl, by rw [hcon, h]⟩
    · simpa [removeLobby, findLobby, List.find?_cons, h] using ih hnodup.2

theorem findLobby_removeLobby_ne {r : Registry} {lobbyID qid : String}
    (hq : qid ≠ lobbyID) :
    findLobby (removeLobby r lobbyID) qid = findLobby r qid := by
  have h3 : ¬ lobbyID = qid := fun hc => hq hc.symm
  induction r with
  | nil => rfl
  | cons hd tl ih =>
    by_cases h : hd.id = lobbyID
    · have h2 : ¬ hd.id = qid := by rw [h]; exact h3
      simp [removeLobby, findLobby, List.find?_cons, h, h2, h3]
    · by_cases hdq : hd.id = qid
      · simp [removeLobby, findLobby, List.find?_cons, h, hdq, hq]
      · simpa [removeLobby, findLobby, List.find?_cons, h, hdq] using ih

theorem setReadyFirst_map_id (ps : List Player) (playerID : String) (b : Bool) :
    (setReadyFirst ps playerID b).map (fun p => p.id) = ps.map (fun p => p.id) := by
  induction ps with
  | nil => rfl
  | cons hd tl ih =>
    by_cases h : hd.id = playerID
    · simp [setReadyFirst, h]
    · simp [setReadyFirst, h, ih]

theorem setReadyFirst_length (ps : List Player) (playerID : String) (b : Bool) :
    (setReadyFirst ps playerID b).length = ps.length := by
  have := congrArg List.length (setReadyFirst_map_id ps playerID b)
  simpa using this

theorem find?_setReadyFirst {ps : List Player} {playerID : String}
    {t : Player} (b : Bool)
    (h : ps.find? (fun p => p.id == playerID) = some t) :
    (setReadyFirst ps playerID b).find? (fun p => p.id == playerID) =
      some ({ t with ready := b }) := by
  induction ps with
  | nil => simp [List.find?] at h
  | cons hd tl ih =>
    by_cases hh : hd.id = playerID
    · have ht : hd = t := by simpa [List.find?_cons, hh] using h
      subst ht
      simp [setReadyFirst, List.find?_cons, hh]
    · have h' : tl.find? (fun p => p.id == playerID) = some t := by
        simpa [List.find?_cons, hh] using h
      simpa [setReadyFirst, List.find?_cons, hh] using ih h'

theorem find?_append_left {r : Registry} {qid : String} {x : Lobby}
    (nl : Lobby) (h : findLobby r qid = some x) :
    findLobby (r ++ [nl]) qid = some x := by
  induction r with
  | nil => simp [findLobby] at h
  | cons hd tl ih =>
    by_cases hh : hd.id = qid
    · have hx : hd = x := by simpa [findLobby, List.find?_cons, hh] using h
      subst hx
      simp [findLobby, List.find?_cons, hh]
    · have h' : findLobby tl qid = some x := by
        simpa [findLobby, List.find?_cons, hh] using h
      simpa [findLobby, List.find?_cons, hh] using ih h'

theorem count_onPlayerReady_broadcast (l : Lobby) (a b : String) :
    (broadcastLobbyState l).count (Event.onPlayerReady a b) = 0 := by
  rw [List.count_eq_zero]
  simp [broadcastLobbyState]

theorem createLobby_error {r : Registry} {name : String} {mp : Int}
    {pb : Bool} {md : Metadata} {own : String} {now : Nat} {msg : String} :
    (createLobby r name mp pb md own now).result = .error msg →
    createLobby r name mp pb md own now = ⟨r, [], .error msg⟩ := by
  unfold createLobby
  split
  · intro h
    obtain rfl : "lobby already exists" = msg := by simpa using h
    rfl
  · intro h; simp at h

theorem joinLobby_error {r : Registry} {lobbyID : String} {p : Player}
    {msg : String} :
    (joinLobby r lobbyID p).result = .error msg →
    joinLobby r lobbyID p = ⟨r, [], .error msg⟩ := by
  unfold joinLobby
  split
  · intro h
    obtain rfl : "lobby does not exist" = msg := by simpa using h
    rfl
  · split
    · intro h
      obtain rfl : "lobby is full" = msg := by simpa using h
      rfl
    · split
      · intro h
        obtain rfl : "player already in lobby" = msg := by simpa using h
        rfl
      · intro h; simp at h

theorem deleteLobby_error {r : Registry} {lobbyID : String} {msg : String} :
    (deleteLobby r lobbyID).result = .error msg →
    deleteLobby r lobbyID = ⟨r, [], .error msg⟩ := by
  unfold deleteLobby
  split
  · intro h
    obtain rfl : "lobby does not exist" = msg := by simpa using h
    rfl
  · intro h; simp at h

theorem leaveLobby_error {r : Registry} {lobbyID playerID : String}
    {msg : String} :
    (leaveLobby r lobbyID playerID).result = .error msg →
    leaveLobby r lobbyID playerID = ⟨r, [], .error msg⟩ := by
  unfold leaveLobby
  split
  · intro h
    obtain rfl : "lobby does not exist" = msg := by simpa using h
    rfl
  · split
    · intro h
      obtain rfl : "player not in lobby" = msg := by simpa using h
      rfl
    · intro h; simp at h

theorem setPlayerReady_error {r : Registry} {lobbyID playerID : String}
    {ready : Bool} {msg : String} :
    (setPlayerReady r lobbyID playerID ready).result = .error msg →
    setPlayerReady r lobbyID playerID ready = ⟨r, [], .error msg⟩ := by
  unfold setPlayerReady
  split
  · intro h
    obtain rfl : "lobby does not exist" = msg := by simpa using h
    rfl
  · split
    · intro h
      obtain rfl : "player not in lobby" = msg := by simpa using h
      rfl
    · split
      · intro h; simp at h
      · intro h; simp at h

theorem setLobbyState_error {r : Registry} {lobbyID : String}
    {st : LobbyState} {msg : String} :
    (setLobbyState r lobbyID st).result = .error msg →
    setLobbyState r lobbyID st = ⟨r, [], .error msg⟩ := by
  unfold setLobbyState
  split
  · intro h
    obtain rfl : "lobby does not exist" = msg := by simpa using h
    rfl
  · split
    · intro h; simp at h
    · intro h; simp at h

theorem startGame_error {r : Registry} {lobbyID userID : String}
    {cs : Option (Lobby → String → Bool)} {msg : String} :
    (startGame r lobbyID userID cs).result = .error msg →
    startGame r lobbyID userID cs = ⟨r, [], .error msg⟩ := by
  unfold startGame
  split
  · intro h
    obtain rfl : "lobby does not exist" = msg := by simpa using h
    rfl
  · split
    · intro h
      obtain rfl : "not allowed to start the game" = msg := by simpa using h
      rfl
    · split
      · intro h
        obtain rfl : "game already started" = msg := by simpa using h
        rfl
      · intro h; simp at h

/-! ## Claim C6: failed operations change nothing and fire nothing -/

/-- Claim C6: every Lobby Registry operation that returns an error (lobby
absent, lobby full, player already in lobby, player not in lobby, not
allowed to start, game already started, duplicate create) leaves the
registry exactly as it was and fires no event hook and no broadcast. -/
theorem lobby_errors_leave_registry_unchanged (r : Registry)
    (a : LobbyAction) (msg : String) :
    ((applyAction r a).result = .error msg →
      applyAction r a = ⟨r, [], .error msg⟩) ∧
    (∀ lobbyID : String, (deleteLobby r lobbyID).result = .error msg →
      deleteLobby r lobbyID = ⟨r, [], .error msg⟩) := by
  constructor
  · cases a with
    | create name mp pb md own now => exact createLobby_error
    | join lobbyID p => exact joinLobby_error
    | leave lobbyID pid => exact leaveLobby_error
    | setReady lobbyID pid rdy => exact setPlayerReady_error
    | setState lobbyID st => exact setLobbyState_error
    | start lobbyID uid cs => exact startGame_error
  · intro lobbyID
    exact deleteLobby_error

/-- Witness for C6: joining an absent lobby and a full lobby both leave
the concrete registry untouched, with an empty event trace. -/
theorem lobby_errors_leave_registry_unchanged_witness :
    applyAction [] (.join "room" ⟨"p1", "alice", false, []⟩) =
      ⟨[], [], .error "lobby does not exist"⟩ ∧
    applyAction [⟨"room", "room", 1, 0, true, [⟨"p1", "alice", false, []⟩],
        .waiting, [], "p1"⟩]
      (.join "room" ⟨"p2", "bob", false, []⟩) =
      ⟨[⟨"room", "room", 1, 0, true, [⟨"p1", "alice", false, []⟩],
         .waiting, [], "p1"⟩], [], .error "lobby is full"⟩ := by
  constructor
  · exact (lobby_errors_leave_registry_unchanged []
      (.join "room" ⟨"p1", "alice", false, []⟩) "lobby does not exist").1
      (by decide)
  · exact (lobby_errors_leave_registry_unchanged _
      (.join "room" ⟨"p2", "bob", false, []⟩) "lobby is full").1 (by decide)

/-! ## Claim C8: setReady is idempotent at the event level -/

theorem setPlayerReady_noop {r : Registry} {lobbyID playerID : String}
    {b : Bool} {lobby : Lobby} {target : Player}
    (h1 : findLobby r lobbyID = some lobby)
    (h2 : lobby.players.find? (fun p => p.id == playerID) = some target)
    (h3 : target.ready = b) :
    setPlayerReady r lobbyID playerID b = ⟨r, [], .ok⟩ := by
  simp [setPlayerReady, h1, h2, h3]

theorem setPlayerReady_changes {r : Registry} {lobbyID playerID : String}
    {b : Bool} {lobby : Lobby} {target : Player}
    (h1 : findLobby r lobbyID = some lobby)
    (h2 : lobby.players.find? (fun p => p.id == playerID) = some target)
    (h3 : ¬ target.ready = b) :
    setPlayerReady r lobbyID playerID b =
      ⟨replaceLobby r lobbyID
         ({ lobby with players := setReadyFirst lobby.players playerID b }),
       [Event.onPlayerReady lobbyID playerID, Event.onLobbyStateChange lobbyID]
         ++ broadcastLobbyState
              ({ lobby with players := setReadyFirst lobby.players playerID b }),
       .ok⟩ := by
  simp [setPlayerReady, h1, h2, h3]

/-- Claim C8: `SetPlayerReady` is a silent success (no state change, no
events, no broadcast) when the requested value equals the current one; a
value-changing call updates the flag and fires `OnPlayerReady`, then
`OnLobbyStateChange`, then the broadcast; after any successful call an
identical repeat is silent, so the changing call fires `OnPlayerReady`
exactly once across the two calls. -/
theorem setPlayerReady_event_idempotent (r : Registry)
    (lobbyID playerID : String) (b : Bool) :
    (∀ lobby target,
      findLobby r lobbyID = some lobby →
      lobby.players.find? (fun p => p.id == playerID) = some target →
      target.ready = b →
      setPlayerReady r lobbyID playerID b = ⟨r, [], .ok⟩) ∧
    (∀ lobby target,
      findLobby r lobbyID = some lobby →
      lobby.players.find? (fun p => p.id == playerID) = some target →
      ¬ target.ready = b →
      setPlayerReady r lobbyID playerID b =
        ⟨replaceLobby r lobbyID
           ({ lobby with players := setReadyFirst lobby.players playerID b }),
         [Event.onPlayerReady lobbyID playerID, Event.onLobbyStateChange lobbyID]
           ++ broadcastLobbyState
                ({ lobby with players := setReadyFirst lobby.players playerID b }),
         .ok⟩) ∧
    ((setPlayerReady r lobbyID playerID b).result = .ok →
      setPlayerReady (setPlayerReady r lobbyID playerID b).registry
          lobbyID playerID b =
        ⟨(setPlayerReady r lobbyID playerID b).registry, [], .ok⟩) ∧
    (∀ lobby target,
      findLobby r lobbyID = some lobby →
      lobby.players.find? (fun p => p.id == playerID) = some target →
      ¬ target.ready = b →
      ((setPlayerReady r lobbyID playerID b).events ++
        (setPlayerReady (setPlayerReady r lobbyID playerID b).registry
            lobbyID playerID b).events).count
          (Event.onPlayerReady lobbyID playerID) = 1) := by
  have second : (setPlayerReady r lobbyID playerID b).result = .ok →
      setPlayerReady (setPlayerReady r lobbyID playerID b).registry
          lobbyID playerID b =
        ⟨(setPlayerReady r lobbyID playerID b).registry, [], .ok⟩ := by
    intro hok
    rcases h1 : findLobby r lobbyID with _ | lobby
    · simp [setPlayerReady, h1] at hok
    · rcases h2 : lobby.players.find? (fun p => p.id == playerID) with _ | target
      · simp [setPlayerReady, h1, h2] at hok
      · by_cases h3 : target.ready = b
        · rw [setPlayerReady_noop h1 h2 h3]
          exact setPlayerReady_noop h1 h2 h3
        · rw [setPlayerReady_changes h1 h2 h3]
          have hid : ({ lobby with
              players := setReadyFirst lobby.players playerID b } : Lobby).id =
              lobbyID := by
            have := findLobby_some_id h1
            simpa using this
          have hf2 := findLobby_replaceLobby_self hid h1
          have hfp : ({ lobby with
              players := setReadyFirst lobby.players playerID b } : Lobby).players.find?
                (fun p => p.id == playerID) =
              some ({ target with ready := b }) := by
            simpa using @find?_setReadyFirst lobby.players playerID target b h2
          exact setPlayerReady_noop hf2 hfp (by simp)
  refine ⟨fun lobby target h1 h2 h3 => setPlayerReady_noop h1 h2 h3,
    fun lobby target h1 h2 h3 => setPlayerReady_changes h1 h2 h3, second, ?_⟩
  intro lobby target h1 h2 h3
  have e1 := setPlayerReady_changes h1 h2 h3
  have e2 := second (by rw [e1])
  rw [e2, e1]
  simp [count_onPlayerReady_broadcast, List.count_cons]

/-- Witness for C8: on a concrete two-player lobby, setting readiness
twice fires the ready event once; the repeat call is silent. -/
theorem setPlayerReady_event_idempotent_witness :
    setPlayerReady
        [⟨"room", "room", 4, 0, true,
          [⟨"p1", "alice", false, []⟩, ⟨"p2", "bob", false, []⟩],
          .waiting, [], "p1"⟩] "room" "p1" true =
      ⟨[⟨"room", "room", 4, 0, true,
         [⟨"p1", "alice", true, []⟩, ⟨"p2", "bob", false, []⟩],
         .waiting, [], "p1"⟩],
       [Event.onPlayerReady "room" "p1", Event.onLobbyStateChange "room",
        Event.broadcast "p1" "room", Event.broadcast "p2" "room"],
       .ok⟩ ∧
    ((setPlayerReady
        [⟨"room", "room", 4, 0, true,
          [⟨"p1", "alice", false, []⟩, ⟨"p2", "bob", false, []⟩],
          .waiting, [], "p1"⟩] "room" "p1" true).events ++
      (setPlayerReady
        (setPlayerReady
          [⟨"room", "room", 4, 0, true,
            [⟨"p1", "alice", false, []⟩, ⟨"p2", "bob", false, []⟩],
            .waiting, [], "p1"⟩] "room" "p1" true).registry
        "room" "p1" true).events).count (Event.onPlayerReady "room" "p1") =
      1 := by
  constructor
  · have h := (setPlayerReady_event_idempotent
      [⟨"room", "room", 4, 0, true,
        [⟨"p1", "alice", false, []⟩, ⟨"p2", "bob", false, []⟩],
        .waiting, [], "p1"⟩] "room" "p1" true).2.1
      ⟨"room", "room", 4, 0, true,
        [⟨"p1", "alice", false, []⟩, ⟨"p2", "bob", false, []⟩],
        .waiting, [], "p1"⟩
      ⟨"p1", "alice", false, []⟩ (by decide) (by decide) (by decide)
    simpa using h
  · exact (setPlayerReady_event_idempotent
      [⟨"room", "room", 4, 0, true,
        [⟨"p1", "alice", false, []⟩, ⟨"p2", "bob", false, []⟩],
        .waiting, [], "p1"⟩] "room" "p1" true).2.2.2
      ⟨"room", "room", 4, 0, true,
        [⟨"p1", "alice", false, []⟩, ⟨"p2", "bob", false, []⟩],
        .waiting, [], "p1"⟩
      ⟨"p1", "alice", false, []⟩ (by decide) (by decide) (by decide)

/-! ## Claim C4: leaving the last player deletes the lobby -/

/-- Claim C4: when `LeaveLobby` removes the last remaining player, the
lobby is deleted in the same call: the call succeeds, `GetLobbyByID`
reports not-found, the lobby id is absent from `ListLobbies`, and a second
`LeaveLobby` on the same id fails with the lobby-not-found error, leaving
the registry unchanged.  (The id-uniqueness hypothesis is the Go map's
key uniqueness, which every reachable registry satisfies.) -/
theorem leaveLobby_last_player_deletes (r : Registry)
    (lobbyID playerID : String) (lobby : Lobby)
    (hids : (r.map (fun l => l.id)).Nodup)
    (hfind : findLobby r lobbyID = some lobby)
    (hlast : lobby.players.map (fun p => p.id) = [playerID]) :
    (leaveLobby r lobbyID playerID).result = .ok ∧
    getLobbyByID (leaveLobby r lobbyID playerID).registry lobbyID = none ∧
    (∀ l ∈ listLobbies (leaveLobby r lobbyID playerID).registry,
      l.id ≠ lobbyID) ∧
    leaveLobby (leaveLobby r lobbyID playerID).registry lobbyID playerID =
      ⟨(leaveLobby r lobbyID playerID).registry, [],
       .error "lobby does not exist"⟩ := by
  obtain ⟨p, hp, hrest⟩ : ∃ p, lobby.players = [p] ∧ p.id = playerID := by
    rcases hps : lobby.players with _ | ⟨p, tl⟩
    · rw [hps] at hlast; simp at hlast
    · rw [hps] at hlast
      rcases tl with _ | ⟨q, tl'⟩
      · simp only [List.map_cons, List.map_nil] at hlast
        exact ⟨p, rfl, by simpa using hlast⟩
      · simp at hlast
  have hnotall : ¬ lobby.players.all (fun p => !(p.id == playerID)) = true := by
    rw [hp]
    simp [hrest]
  have hfilter : lobby.players.filter (fun p => !(p.id == playerID)) = [] := by
    rw [hp]
    simp [hrest]
  have hstep : leaveLobby r lobbyID playerID =
      ⟨removeLobby r lobbyID,
       [Event.onPlayerLeave lobbyID playerID, Event.onLobbyEmpty lobbyID,
        Event.onLobbyStateChange lobbyID, Event.onLobbyDeleted lobbyID],
       .ok⟩ := by
    simp [leaveLobby, hfind, hnotall, hfilter, broadcastLobbyState]
  have hgone : findLobby (removeLobby r lobbyID) lobbyID = none :=
    findLobby_removeLobby_self hids
  refine ⟨by rw [hstep], ?_, ?_, ?_⟩
  · rw [hstep]
    exact hgone
  · rw [hstep]
    intro l hl
    exact (findLobby_eq_none.mp hgone) l hl
  · rw [hstep]
    simp [leaveLobby, hgone]

/-- Witness for C4 on a concrete one-player lobby. -/
theorem leaveLobby_last_player_deletes_witness :
    (leaveLobby [⟨"room", "room", 4, 0, true, [⟨"p1", "alice", false, []⟩],
        .waiting, [], "p1"⟩] "room" "p1").result = .ok ∧
    getLobbyByID (leaveLobby [⟨"room", "room", 4, 0, true,
        [⟨"p1", "alice", false, []⟩], .waiting, [], "p1"⟩] "room" "p1").registry
      "room" = none := by
  have h := leaveLobby_last_player_deletes
    [⟨"room", "room", 4, 0, true, [⟨"p1", "alice", false, []⟩],
      .waiting, [], "p1"⟩] "room" "p1"
    ⟨"room", "room", 4, 0, true, [⟨"p1", "alice", false, []⟩],
      .waiting, [], "p1"⟩
    (by decide) (by decide) (by decide)
  exact ⟨h.1, h.2.1⟩

/-! ## Registry invariants -/

theorem idsNodup_replace {r : Registry} {lobbyID : String} {nl : Lobby}
    (h : idsNodup r) (hnl : nl.id = lobbyID) :
    idsNodup (replaceLobby r lobbyID nl) := by
  unfold idsNodup at h ⊢
  rw [replaceLobby_map_id hnl]
  exact h

theorem idsNodup_remove {r : Registry} {lobbyID : String} (h : idsNodup r) :
    idsNodup (removeLobby r lobbyID) :=
  List.Nodup.sublist (removeLobby_map_id_sublist r lobbyID) h

theorem idsNodup_append_fresh {r : Registry} {name : String} {nl : Lobby}
    (h : idsNodup r) (hf : findLobby r name = none) (hnl : nl.id = name) :
    idsNodup (r ++ [nl]) := by
  unfold idsNodup
  rw [List.map_append]
  rw [List.nodup_append]
  refine ⟨h, by simp, ?_⟩
  intro x hx hx1
  simp only [List.map_cons, List.map_nil, List.mem_singleton] at hx1
  rcases List.mem_map.mp hx with ⟨l, hl, hlx⟩
  exact (findLobby_eq_none.mp hf) l hl (by rw [hlx, hx1]; exact hnl)

theorem applyAction_idsNodup (r : Registry) (a : LobbyAction)
    (h : idsNodup r) : idsNodup (applyAction r a).registry := by
  cases a with
  | create name mp pb md own now =>
    dsimp only [applyAction]
    unfold createLobby
    rcases hf : findLobby r name with _ | l <;> simp only [hf]
    · exact idsNodup_append_fresh h hf rfl
    · exact h
  | join lobbyID p =>
    dsimp only [applyAction]
    unfold joinLobby
    rcases hf : findLobby r lobbyID with _ | lobby <;> simp only [hf]
    · exact h
    · split
      · exact h
      · split
        · exact h
        · exact idsNodup_replace h (by simpa using findLobby_some_id hf)
  | leave lobbyID pid =>
    dsimp only [applyAction]
    unfold leaveLobby
    rcases hf : findLobby r lobbyID with _ | lobby <;> simp only [hf]
    · exact h
    · split
      · exact h
      · show idsNodup (if _ then removeLobby r lobbyID else _)
        split
        · exact idsNodup_remove h
        · exact idsNodup_replace h (by simpa using findLobby_some_id hf)
  | setReady lobbyID pid rdy =>
    dsimp only [applyAction]
    unfold setPlayerReady
    rcases hf : findLobby r lobbyID with _ | lobby <;> simp only [hf]
    · exact h
    · rcases hp : lobby.players.find? (fun q => q.id == pid) with _ | target <;>
        simp only [hp]
      · exact h
      · split
        · exact h
        · exact idsNodup_replace h (by simpa using findLobby_some_id hf)
  | setState lobbyID st =>
    dsimp only [applyAction]
    unfold setLobbyState
    rcases hf : findLobby r lobbyID with _ | lobby <;> simp only [hf]
    · exact h
    · split
      · exact h
      · exact idsNodup_replace h (by simpa using findLobby_some_id hf)
  | start lobbyID uid cs =>
    dsimp only [applyAction]
    unfold startGame
    rcases hf : findLobby r lobbyID with _ | lobby <;> simp only [hf]
    · exact h
    · split
      · exact h
      · split
        · exact h
        · exact idsNodup_replace h (by simpa using findLobby_some_id hf)

theorem playersNodup_replace {r : Registry} {lobbyID : String} {nl : Lobby}
    (h : playersNodup r) (hn : (nl.players.map (fun p => p.id)).Nodup) :
    playersNodup (replaceLobby r lobbyID nl) := by
  intro x hx
  rcases mem_replaceLobby hx with h1 | rfl
  · exact h x h1
  · exact hn

theorem playersNodup_remove {r : Registry} {lobbyID : String}
    (h : playersNodup r) : playersNodup (removeLobby r lobbyID) :=
  fun x hx => h x (mem_removeLobby hx)

theorem applyAction_playersNodup (r : Registry) (a : LobbyAction)
    (h : playersNodup r) : playersNodup (applyAction r a).registry := by
  cases a with
  | create name mp pb md own now =>
    dsimp only [applyAction]
    unfold createLobby
    rcases hf : findLobby r name with _ | l <;> simp only [hf]
    · intro x hx
      rcases List.mem_append.mp hx with h1 | h1
      · exact h x h1
      · simp only [List.mem_singleton] at h1
        subst h1
        simp
    · exact h
  | join lobbyID p =>
    dsimp only [applyAction]
    unfold joinLobby
    rcases hf : findLobby r lobbyID with _ | lobby <;> simp only [hf]
    · exact h
    · split
      · exact h
      · split
        next hdup => exact h
        next hdup =>
          refine playersNodup_replace h ?_
          have hn := h lobby (findLobby_some_mem hf)
          simp only [List.map_append, List.map_cons, List.map_nil]
          rw [List.nodup_append]
          refine ⟨hn, by simp, ?_⟩
          intro x hx hx1
          simp only [List.mem_singleton] at hx1
          rcases List.mem_map.mp hx with ⟨q, hq, hqx⟩
          exact hdup (List.any_eq_true.mpr ⟨q, hq, by simp [hqx, hx1]⟩)
  | leave lobbyID pid =>
    dsimp only [applyAction]
    unfold leaveLobby
    rcases hf : findLobby r lobbyID with _ | lobby <;> simp only [hf]
    · exact h
    · split
      · exact h
      · show playersNodup (if _ then removeLobby r lobbyID else _)
        split
        · exact playersNodup_remove h
        · refine playersNodup_replace h ?_
          have hn := h lobby (findLobby_some_mem hf)
          exact List.Nodup.sublist
            ((List.filter_sublist lobby.players).map _) hn
  | setReady lobbyID pid rdy =>
    dsimp only [applyAction]
    unfold setPlayerReady
    rcases hf : findLobby r lobbyID with _ | lobby <;> simp only [hf]
    · exact h
    · rcases hp : lobby.players.find? (fun q => q.id == pid) with _ | target <;>
        simp only [hp]
      · exact h
      · split
        · exact h
        · refine playersNodup_replace h ?_
          have hn := h lobby (findLobby_some_mem hf)
          simpa [setReadyFirst_map_id] using hn
  | setState lobbyID st =>
    dsimp only [applyAction]
    unfold setLobbyState
    rcases hf : findLobby r lobbyID with _ | lobby <;> simp only [hf]
    · exact h
    · split
      · exact h
      · exact playersNodup_replace h (h lobby (findLobby_some_mem hf))
  | start lobbyID uid cs =>
    dsimp only [applyAction]
    unfold startGame
    rcases hf : findLobby r lobbyID with _ | lobby <;> simp only [hf]
    · exact h
    · split
      · exact h
      · split
        · exact h
        · exact playersNodup_replace h (h lobby (findLobby_some_mem hf))

theorem capacity_replace {r : Registry} {lobbyID : String} {nl : Lobby}
    (h : capacityRespected r)
    (hc : (nl.players.length : Int) ≤ nl.maxPlayers) :
    capacityRespected (replaceLobby r lobbyID nl) := by
  intro x hx
  rcases mem_replaceLobby hx with h1 | rfl
  · exact h x h1
  · exact hc

theorem capacity_remove {r : Registry} {lobbyID : String}
    (h : capacityRespected r) : capacityRespected (removeLobby r lobbyID) :=
  fun x hx => h x (mem_removeLobby hx)

theorem applyAction_capacity (r : Registry) (a : LobbyAction)
    (h : capacityRespected r) (ha : actionCapacityOK a) :
    capacityRespected (applyAction r a).registry := by
  cases a with
  | create name mp pb md own now =>
    dsimp only [applyAction]
    unfold createLobby
    rcases hf : findLobby r name with _ | l <;> simp only [hf]
    · intro x hx
      rcases List.mem_append.mp hx with h1 | h1
      · exact h x h1
      · simp only [List.mem_singleton] at h1
        subst h1
        simpa using ha
    · exact h
  | join lobbyID p =>
    dsimp only [applyAction]
    unfold joinLobby
    rcases hf : findLobby r lobbyID with _ | lobby <;> simp only [hf]
    · exact h
    · split
      next hfull => exact h
      next hfull =>
        split
        · exact h
        · refine capacity_replace h ?_
          have hc := h lobby (findLobby_some_mem hf)
          simp only [List.length_append, List.length_cons, List.length_nil]
          push_cast
          omega
  | leave lobbyID pid =>
    dsimp only [applyAction]
    unfold leaveLobby
    rcases hf : findLobby r lobbyID with _ | lobby <;> simp only [hf]
    · exact h
    · split
      · exact h
      · show capacityRespected (if _ then removeLobby r lobbyID else _)
        split
        · exact capacity_remove h
        · refine capacity_replace h ?_
          have hc := h lobby (findLobby_some_mem hf)
          have hlen := List.length_filter_le (fun q => !(q.id == pid))
            lobby.players
          calc ((lobby.players.filter (fun q => !(q.id == pid))).length : Int)
              ≤ (lobby.players.length : Int) := by exact_mod_cast hlen
            _ ≤ lobby.maxPlayers := hc
  | setReady lobbyID pid rdy =>
    dsimp only [applyAction]
    unfold setPlayerReady
    rcases hf : findLobby r lobbyID with _ | lobby <;> simp only [hf]
    · exact h
    · rcases hp : lobby.players.find? (fun q => q.id == pid) with _ | target <;>
        simp only [hp]
      · exact h
      · split
        · exact h
        · refine capacity_replace h ?_
          have hc := h lobby (findLobby_some_mem hf)
          simpa [setReadyFirst_length] using hc
  | setState lobbyID st =>
    dsimp only [applyAction]
    unfold setLobbyState
    rcases hf : findLobby r lobbyID with _ | lobby <;> simp only [hf]
    · exact h
    · split
      · exact h
      · exact capacity_replace h (h lobby (findLobby_some_mem hf))
  | start lobbyID uid cs =>
    dsimp only [applyAction]
    unfold startGame
    rcases hf : findLobby r lobbyID with _ | lobby <;> simp only [hf]
    · exact h
    · split
      · exact h
      · split
        · exact h
        · exact capacity_replace h (h lobby (findLobby_some_mem hf))

theorem noFinished_replace {r : Registry} {lobbyID : String} {nl : Lobby}
    (h : noFinished r) (hs : nl.state ≠ .finished) :
    noFinished (replaceLobby r lobbyID nl) := by
  intro x hx
  rcases mem_replaceLobby hx with h1 | rfl
  · exact h x h1
  · exact hs

theorem noFinished_remove {r : Registry} {lobbyID : String}
    (h : noFinished r) : noFinished (removeLobby r lobbyID) :=
  fun x hx => h x (mem_removeLobby hx)

theorem applyAction_noFinished (r : Registry) (a : LobbyAction)
    (ha : ¬ isSetState a) (h : noFinished r) :
    noFinished (applyAction r a).registry := by
  cases a with
  | setState lobbyID st => exact absurd trivial ha
  | create name mp pb md own now =>
    dsimp only [applyAction]
    unfold createLobby
    rcases hf : findLobby r name with _ | l <;> simp only [hf]
    · intro x hx
      rcases List.mem_append.mp hx with h1 | h1
      · exact h x h1
      · simp only [List.mem_singleton] at h1
        subst h1
        simp
    · exact h
  | join lobbyID p =>
    dsimp only [applyAction]
    unfold joinLobby
    rcases hf : findLobby r lobbyID with _ | lobby <;> simp only [hf]
    · exact h
    · split
      · exact h
      · split
        · exact h
        · exact noFinished_replace h (h lobby (findLobby_some_mem hf))
  | leave lobbyID pid =>
    dsimp only [applyAction]
    unfold leaveLobby
    rcases hf : findLobby r lobbyID with _ | lobby <;> simp only [hf]
    · exact h
    · split
      · exact h
      · show noFinished (if _ then removeLobby r lobbyID else _)
        split
        · exact noFinished_remove h
        · exact noFinished_replace h (h lobby (findLobby_some_mem hf))
  | setReady lobbyID pid rdy =>
    dsimp only [applyAction]
    unfold setPlayerReady
    rcases hf : findLobby r lobbyID with _ | lobby <;> simp only [hf]
    · exact h
    · rcases hp : lobby.players.find? (fun q => q.id == pid) with _ | target <;>
        simp only [hp]
      · exact h
      · split
        · exact h
        · exact noFinished_replace h (h lobby (findLobby_some_mem hf))
  | start lobbyID uid cs =>
    dsimp only [applyAction]
    unfold startGame
    rcases hf : findLobby r lobbyID with _ | lobby <;> simp only [hf]
    · exact h
    · split
      · exact h
      · split
        · exact h
        · exact noFinished_replace h (by simp)

/-! ## Reachability facts -/

theorem reachable_wf {r : Registry} (h : Reachable r) :
    idsNodup r ∧ playersNodup r := by
  induction h with
  | empty => exact ⟨List.nodup_nil, fun l hl => absurd hl (List.not_mem_nil l)⟩
  | step r a hr ih =>
    exact ⟨applyAction_idsNodup r a ih.1, applyAction_playersNodup r a ih.2⟩

theorem reachableNN_wf {r : Registry} (h : ReachableNN r) :
    idsNodup r ∧ playersNodup r ∧ capacityRespected r := by
  induction h with
  | empty =>
    exact ⟨List.nodup_nil, fun l hl => absurd hl (List.not_mem_nil l),
      fun l hl => absurd hl (List.not_mem_nil l)⟩
  | step r a hr hcap ih =>
    exact ⟨applyAction_idsNodup r a ih.1, applyAction_playersNodup r a ih.2.1,
      applyAction_capacity r a ih.2.2 hcap⟩

theorem reachableNN_toReachable {r : Registry} (h : ReachableNN r) :
    Reachable r := by
  induction h with
  | empty => exact Reachable.empty
  | step r a hr hcap ih => exact Reachable.step r a ih

theorem reachableNoSetState_toReachable {r : Registry}
    (h : ReachableNoSetState r) : Reachable r := by
  induction h with
  | empty => exact Reachable.empty
  | step r a hr hns ih => exact Reachable.step r a ih

theorem reachableNoSetState_noFinished {r : Registry}
    (h : ReachableNoSetState r) : noFinished r := by
  induction h with
  | empty => exact fun l hl => absurd hl (List.not_mem_nil l)
  | step r a hr hns ih => exact applyAction_noFinished r a hns ih

/-! ## stateOf helpers -/

theorem stateOf_replace {r : Registry} {tid : String} {nl l : Lobby}
    (hnl : nl.id = tid) (hfound : findLobby r tid = some l) (qid : String) :
    stateOf (replaceLobby r tid nl) qid =
      if qid = tid then some nl.state else stateOf r qid := by
  by_cases hq : qid = tid
  · subst hq
    simp [stateOf, findLobby_replaceLobby_self hnl hfound]
  · simp [stateOf, findLobby_replaceLobby_ne hnl hq, hq]

theorem stateOf_remove {r : Registry} {tid : String} (hids : idsNodup r)
    (qid : String) :
    stateOf (removeLobby r tid) qid =
      if qid = tid then none else stateOf r qid := by
  by_cases hq : qid = tid
  · subst hq
    simp [stateOf, findLobby_removeLobby_self hids]
  · simp [stateOf, findLobby_removeLobby_ne hq, hq]

theorem stateOf_append {r : Registry} {qid : String} {x : Lobby}
    (hq : findLobby r qid = some x) (nl : Lobby) :
    stateOf (r ++ [nl]) qid = some x.state := by
  simp [stateOf, find?_append_left nl hq]

theorem state_unchanged {r : Registry} {qid : String} {x : Lobby}
    {s s' : LobbyState} (hq : findLobby r qid = some x) (hxs : x.state = s)
    (h3 : stateOf r qid = some s') : s' = s := by
  simp only [stateOf, hq, Option.map_some] at h3
  have h4 := Option.some.inj h3
  rw [← h4]; exact hxs

theorem state_preserved_replace {r : Registry} {tid qid : String}
    {x lobby nl : Lobby} {s s' : LobbyState}
    (hq : findLobby r qid = some x) (hxs : x.state = s)
    (hf : findLobby r tid = some lobby)
    (h3 : stateOf (replaceLobby r tid nl) qid = some s')
    (h1 : nl.id = tid) (h2 : nl.state = lobby.state) : s' = s := by
  rw [stateOf_replace h1 hf qid] at h3
  by_cases hq2 : qid = tid
  · rw [if_pos hq2] at h3
    have h4 := Option.some.inj h3
    have hxl : x = lobby := by
      rw [hq2] at hq
      rw [hq] at hf
      exact Option.some.inj hf
    rw [← h4, h2, ← hxl]
    exact hxs
  · rw [if_neg hq2] at h3
    exact state_unchanged hq hxs h3

theorem state_remove {r : Registry} {tid qid : String} {x : Lobby}
    {s s' : LobbyState} (hids : idsNodup r)
    (hq : findLobby r qid = some x) (hxs : x.state = s)
    (h3 : stateOf (removeLobby r tid) qid = some s') : s' = s := by
  rw [stateOf_remove hids qid] at h3
  by_cases hq2 : qid = tid
  · rw [if_pos hq2] at h3
    cases h3
  · rw [if_neg hq2] at h3
    exact state_unchanged hq hxs h3

theorem state_start_replace {r : Registry} {tid qid : String} {x lobby : Lobby}
    {s s' : LobbyState}
    (hq : findLobby r qid = some x) (hxs : x.state = s)
    (hf : findLobby r tid = some lobby)
    (hng : lobby.state ≠ .inGame) (hnfin : lobby.state ≠ .finished)
    (h3 : stateOf (replaceLobby r tid ({ lobby with state := .inGame })) qid =
      some s') :
    s' = s ∨ (s = .waiting ∧ s' = .inGame) := by
  rw [stateOf_replace (by simpa using findLobby_some_id hf) hf qid] at h3
  by_cases hq2 : qid = tid
  · rw [if_pos hq2] at h3
    right
    have h4 : s' = LobbyState.inGame := by simpa using (Option.some.inj h3).symm
    have hxl : x = lobby := by
      rw [hq2] at hq
      rw [hq] at hf
      exact Option.some.inj hf
    have hw : lobby.state = .waiting := by
      cases hls : lobby.state
      · rfl
      · exact absurd hls hng
      · exact absurd hls hnfin
    exact ⟨by rw [← hxs, hxl, hw], h4⟩
  · rw [if_neg hq2] at h3
    exact Or.inl (state_unchanged hq hxs h3)

theorem applyAction_state_mono (r : Registry) (a : LobbyAction)
    (ha : ¬ isSetState a) (hids : idsNodup r) (hnf : noFinished r)
    (qid : String) (s s' : LobbyState)
    (hs : stateOf r qid = some s)
    (hs' : stateOf (applyAction r a).registry qid = some s') :
    s' = s ∨ (s = .waiting ∧ s' = .inGame) := by
  rcases hq : findLobby r qid with _ | x
  · rw [stateOf, hq] at hs
    cases hs
  · have hxs : x.state = s := by
      rw [stateOf, hq] at hs
      exact Option.some.inj hs
    cases a with
    | setState lobbyID st => exact absurd trivial ha
    | create name mp pb md own now =>
      dsimp only [applyAction] at hs'
      unfold createLobby at hs'
      split at hs'
      · exact Or.inl (state_unchanged hq hxs hs')
      · rw [stateOf_append hq _] at hs'
        refine Or.inl ?_
        have h5 := Option.some.inj hs'
        rw [← h5]; exact hxs
    | join lobbyID p =>
      dsimp only [applyAction] at hs'
      unfold joinLobby at hs'
      split at hs'
      · exact Or.inl (state_unchanged hq hxs hs')
      next lobby heq =>
        split at hs'
        · exact Or.inl (state_unchanged hq hxs hs')
        · split at hs'
          · exact Or.inl (state_unchanged hq hxs hs')
          · exact Or.inl (state_preserved_replace hq hxs heq hs'
              (by simpa using findLobby_some_id heq) rfl)
    | leave lobbyID pid =>
      dsimp only [applyAction] at hs'
      unfold leaveLobby at hs'
      split at hs'
      · exact Or.inl (state_unchanged hq hxs hs')
      next lobby heq =>
        split at hs'
        · exact Or.inl (state_unchanged hq hxs hs')
        · dsimp only at hs'
          split at hs'
          · exact Or.inl (state_remove hids hq hxs hs')
          · exact Or.inl (state_preserved_replace hq hxs heq hs'
              (by simpa using findLobby_some_id heq) rfl)
    | setReady lobbyID pid rdy =>
      dsimp only [applyAction] at hs'
      unfold setPlayerReady at hs'
      split at hs'
      · exact Or.inl (state_unchanged hq hxs hs')
      next lobby heq =>
        split at hs'
        · exact Or.inl (state_unchanged hq hxs hs')
        · split at hs'
          · exact Or.inl (state_unchanged hq hxs hs')
          · exact Or.inl (state_preserved_replace hq hxs heq hs'
              (by simpa using findLobby_some_id heq) rfl)
    | start lobbyID uid cs =>
      dsimp only [applyAction] at hs'
      unfold startGame at hs'
      split at hs'
      · exact Or.inl (state_unchanged hq hxs hs')
      next lobby heq =>
        split at hs'
        · exact Or.inl (state_unchanged hq hxs hs')
        · split at hs'
          · exact Or.inl (state_unchanged hq hxs hs')
          next hng =>
            exact state_start_replace hq hxs heq (by simpa using hng)
              (hnf lobby (findLobby_some_mem heq)) hs'

theorem applyAction_state_preserved (r : Registry) (a : LobbyAction)
    (ha : ¬ isSetState a) (hb : ¬ isStartGame a) (hids : idsNodup r)
    (qid : String) (s s' : LobbyState)
    (hs : stateOf r qid = some s)
    (hs' : stateOf (applyAction r a).registry qid = some s') : s' = s := by
  rcases hq : findLobby r qid with _ | x
  · rw [stateOf, hq] at hs
    cases hs
  · have hxs : x.state = s := by
      rw [stateOf, hq] at hs
      exact Option.some.inj hs
    cases a with
    | setState lobbyID st => exact absurd trivial ha
    | start lobbyID uid cs => exact absurd trivial hb
    | create name mp pb md own now =>
      dsimp only [applyAction] at hs'
      unfold createLobby at hs'
      split at hs'
      · exact state_unchanged hq hxs hs'
      · rw [stateOf_append hq _] at hs'
        have h5 := Option.some.inj hs'
        rw [← h5]; exact hxs
    | join lobbyID p =>
      dsimp only [applyAction] at hs'
      unfold joinLobby at hs'
      split at hs'
      · exact state_unchanged hq hxs hs'
      next lobby heq =>
        split at hs'
        · exact state_unchanged hq hxs hs'
        · split at hs'
          · exact state_unchanged hq hxs hs'
          · exact state_preserved_replace hq hxs heq hs'
              (by simpa using findLobby_some_id heq) rfl
    | leave lobbyID pid =>
      dsimp only [applyAction] at hs'
      unfold leaveLobby at hs'
      split at hs'
      · exact state_unchanged hq hxs hs'
      next lobby heq =>
        split at hs'
        · exact state_unchanged hq hxs hs'
        · dsimp only at hs'
          split at hs'
          · exact state_remove hids hq hxs hs'
          · exact state_preserved_replace hq hxs heq hs'
              (by simpa using findLobby_some_id heq) rfl
    | setReady lobbyID pid rdy =>
      dsimp only [applyAction] at hs'
      unfold setPlayerReady at hs'
      split at hs'
      · exact state_unchanged hq hxs hs'
      next lobby heq =>
        split at hs'
        · exact state_unchanged hq hxs hs'
        · split at hs'
          · exact state_unchanged hq hxs hs'
          · exact state_preserved_replace hq hxs heq hs'
              (by simpa using findLobby_some_id heq) rfl

theorem startGame_ok_waiting (r : Registry) (lobbyID userID : String)
    (cs : Option (Lobby → String → Bool)) (hnf : noFinished r)
    (hok : (startGame r lobbyID userID cs).result = .ok) :
    stateOf r lobbyID = some .waiting ∧
    stateOf (startGame r lobbyID userID cs).registry lobbyID =
      some .inGame := by
  rcases hf : findLobby r lobbyID with _ | lobby
  · rw [startGame, hf] at hok
    cases hok
  · by_cases h1 : canStartCheck cs lobby userID
    · by_cases h2 : lobby.state = .inGame
      · simp [startGame, hf, h1, h2] at hok
      · have hw : lobby.state = .waiting := by
          have hnfin := hnf lobby (findLobby_some_mem hf)
          cases hls : lobby.state
          · rfl
          · exact absurd hls h2
          · exact absurd hls hnfin
        have he : startGame r lobbyID userID cs =
            ⟨replaceLobby r lobbyID ({ lobby with state := .inGame }),
             [Event.onLobbyStateChange lobbyID]
               ++ broadcastLobbyState ({ lobby with state := .inGame }),
             .ok⟩ := by
          simp [startGame, hf, h1, h2]
        constructor
        · simp [stateOf, hf, hw]
        · rw [he]
          rw [stateOf_replace (by simpa using findLobby_some_id hf) hf lobbyID]
          simp
    · simp [startGame, hf, h1] at hok

/-! ## Claim C1 (corrected): capacity bound and player-id uniqueness -/

/-- Counterexample to claim C1 as stated: `CreateLobby` never validates
`maxPlayers`, so one specified operation from the empty registry (a create
with maxPlayers = -1) reaches a state whose stored lobby violates
`len(players) ≤ maxPlayers` (0 ≤ -1 is false). -/
theorem lobby_capacity_counterexample :
    Reachable (createLobby [] "room" (-1) true [] "owner" 0).registry ∧
    ¬ (∀ l ∈ (createLobby [] "room" (-1) true [] "owner" 0).registry,
        (l.players.length : Int) ≤ l.maxPlayers) := by
  constructor
  · exact Reachable.step [] (.create "room" (-1) true [] "owner" 0)
      Reachable.empty
  · decide

/-- Claim C1 amended: in every state reachable by the specified operations
in which every `createLobby` passed a non-negative `maxPlayers`, every
stored lobby satisfies `len(players) ≤ maxPlayers` and has pairwise
distinct player ids (the uniqueness part holds for arbitrary reachable
states, with no capacity restriction); and `JoinLobby` returns the
lobby-is-full error, leaving everything unchanged, when `len(players)`
already equals `MaxPlayers`. -/
theorem lobby_capacity_and_player_uniqueness :
    (∀ r : Registry, ReachableNN r → ∀ l ∈ r,
      (l.players.length : Int) ≤ l.maxPlayers ∧
      (l.players.map (fun p => p.id)).Nodup) ∧
    (∀ r : Registry, Reachable r → ∀ l ∈ r,
      (l.players.map (fun p => p.id)).Nodup) ∧
    (∀ (r : Registry) (lobbyID : String) (player : Player) (lobby : Lobby),
      findLobby r lobbyID = some lobby →
      (lobby.players.length : Int) = lobby.maxPlayers →
      joinLobby r lobbyID player = ⟨r, [], .error "lobby is full"⟩) := by
  refine ⟨?_, ?_, ?_⟩
  · intro r h l hl
    have hwf := reachableNN_wf h
    exact ⟨hwf.2.2 l hl, hwf.2.1 l hl⟩
  · intro r h l hl
    exact (reachable_wf h).2 l hl
  · intro r lobbyID player lobby hf heq
    have hfull : lobby.maxPlayers ≤ (lobby.players.length : Int) :=
      le_of_eq heq.symm
    simp [joinLobby, hf, hfull]

/-- Witness for the amended C1: the invariant evaluated on a concrete
reachable state, and the full error on a concrete at-capacity lobby. -/
theorem lobby_capacity_and_player_uniqueness_witness :
    (∀ l ∈ (createLobby [] "room" 2 true [] "owner" 0).registry,
      (l.players.length : Int) ≤ l.maxPlayers ∧
      (l.players.map (fun p => p.id)).Nodup) ∧
    joinLobby [⟨"room", "room", 1, 0, true, [⟨"p1", "alice", false, []⟩],
        .waiting, [], "p1"⟩] "room" ⟨"p2", "bob", false, []⟩ =
      ⟨[⟨"room", "room", 1, 0, true, [⟨"p1", "alice", false, []⟩],
         .waiting, [], "p1"⟩], [], .error "lobby is full"⟩ := by
  constructor
  · exact lobby_capacity_and_player_uniqueness.1 _
      (ReachableNN.step [] (.create "room" 2 true [] "owner" 0)
        ReachableNN.empty (show (0 : Int) ≤ 2 by decide))
  · exact lobby_capacity_and_player_uniqueness.2.2 _ "room"
      ⟨"p2", "bob", false, []⟩
      ⟨"room", "room", 1, 0, true, [⟨"p1", "alice", false, []⟩],
        .waiting, [], "p1"⟩ (by decide) (by decide)

/-! ## Claim C5 (corrected): the lobby state machine -/

/-- Counterexample to claim C5 as stated: `SetLobbyState` is one of the
specified operations and it sets any requested state — here it moves a
reachable Waiting lobby straight to Finished. -/
theorem setState_finished_counterexample :
    Reachable (setLobbyState (createLobby [] "room" 2 true [] "owner" 0).registry
      "room" .finished).registry ∧
    stateOf (createLobby [] "room" 2 true [] "owner" 0).registry "room" =
      some .waiting ∧
    stateOf (setLobbyState (createLobby [] "room" 2 true [] "owner" 0).registry
      "room" .finished).registry "room" = some .finished := by
  refine ⟨?_, by decide, by decide⟩
  exact Reachable.step _ (.setState "room" .finished)
    (Reachable.step [] (.create "room" 2 true [] "owner" 0) Reachable.empty)

/-- Claim C5 amended: excluding the generic `setState` setter (which can
produce arbitrary transitions, including setting Finished), each lobby's
state only advances Waiting→InGame: in every registry reachable without
`setState` no lobby is Finished; every specified operation other than
`setState` and `startGame` (create, join, leave, setReady) leaves every
lobby's state exactly as it was; every non-`setState` operation at most
advances a state Waiting→InGame; and a successful `startGame` performs
exactly the Waiting→InGame transition. -/
theorem lobby_state_only_advances :
    (∀ r : Registry, ReachableNoSetState r → ∀ l ∈ r, l.state ≠ .finished) ∧
    (∀ (r : Registry) (a : LobbyAction), ReachableNoSetState r →
      ¬ isSetState a → ¬ isStartGame a →
      ∀ (qid : String) (s s' : LobbyState),
        stateOf r qid = some s →
        stateOf (applyAction r a).registry qid = some s' →
        s' = s) ∧
    (∀ (r : Registry) (a : LobbyAction), ReachableNoSetState r →
      ¬ isSetState a →
      ∀ (qid : String) (s s' : LobbyState),
        stateOf r qid = some s →
        stateOf (applyAction r a).registry qid = some s' →
        s' = s ∨ (s = .waiting ∧ s' = .inGame)) ∧
    (∀ (r : Registry) (lobbyID userID : String)
        (cs : Option (Lobby → String → Bool)), ReachableNoSetState r →
      (startGame r lobbyID userID cs).result = .ok →
      stateOf r lobbyID = some .waiting ∧
      stateOf (startGame r lobbyID userID cs).registry lobbyID =
        some .inGame) := by
  refine ⟨?_, ?_, ?_, ?_⟩
  · intro r h
    exact reachableNoSetState_noFinished h
  · intro r a h ha hb qid s s' hs hs'
    exact applyAction_state_preserved r a ha hb
      (reachable_wf (reachableNoSetState_toReachable h)).1 qid s s' hs hs'
  · intro r a h ha qid s s' hs hs'
    exact applyAction_state_mono r a ha
      (reachable_wf (reachableNoSetState_toReachable h)).1
      (reachableNoSetState_noFinished h) qid s s' hs hs'
  · intro r lobbyID userID cs h hok
    exact startGame_ok_waiting r lobbyID userID cs
      (reachableNoSetState_noFinished h) hok

/-- Witness for the amended C5: on a concrete reachable lobby, `join`
leaves the state at Waiting, and a successful owner `startGame` goes
Waiting→InGame. -/
theorem lobby_state_only_advances_witness :
    stateOf (applyAction (applyAction [] (.create "room" 4 true [] "p1" 0)).registry
        (.join "room" ⟨"p1", "alice", false, []⟩)).registry "room" =
      some .waiting ∧
    stateOf (startGame
        (applyAction (applyAction [] (.create "room" 4 true [] "p1" 0)).registry
          (.join "room" ⟨"p1", "alice", false, []⟩)).registry
        "room" "p1" none).registry "room" = some .inGame ∧
    LobbyState.waiting = LobbyState.waiting := by
  have hreach1 : ReachableNoSetState
      (applyAction [] (.create "room" 4 true [] "p1" 0)).registry :=
    ReachableNoSetState.step [] (.create "room" 4 true [] "p1" 0)
      ReachableNoSetState.empty (fun h => h)
  have hreach : ReachableNoSetState
      (applyAction (applyAction [] (.create "room" 4 true [] "p1" 0)).registry
        (.join "room" ⟨"p1", "alice", false, []⟩)).registry :=
    ReachableNoSetState.step _ (.join "room" ⟨"p1", "alice", false, []⟩)
      hreach1 (fun h => h)
  have h := lobby_state_only_advances.2.2.2 _ "room" "p1" none hreach (by decide)
  have hpres := lobby_state_only_advances.2.1 _
    (.join "room" ⟨"p1", "alice", false, []⟩) hreach1 (fun hc => hc)
    (fun hc => hc) "room" .waiting .waiting (by decide) (by decide)
  exact ⟨h.1, h.2, hpres⟩

end MultiplayerLobby
